import Mathlib

/-!
Shallow embedding of the optimizer subsystem of `jdb78/pytorch_optimizer`
(`pytorch_optimizer/sam.py`, `pytorch_optimizer/optimizer/shampoo.py`),
over exact rationals.  Tensors are modelled as flat lists of rationals
(the basic Shampoo optimizer is embedded for 1-D parameters, for which its
per-dimension loop runs exactly once with exponent `-1/order = -1`).
The host runtime's square root (inside `torch.norm`) is an abstract
function parameter, constrained by hypotheses exactly at the inputs where
the code applies it.  The `PreConditioner` and `Graft` classes live in
`shampoo_utils.py`, which is not among the sources in scope; they are kept
abstract as records of operations, and the one operation whose result the
claims need concretely (`Graft.update_momentum`) is modelled from the spec.
-/

namespace PyTorchOpt

/-- Elementwise tensor addition (`a.add_(b)` on shape-matched tensors). -/
def tadd (xs ys : List ℚ) : List ℚ := List.zipWith (· + ·) xs ys

/-- Scalar–tensor multiplication (`t.mul_(c)` / `c * t`). -/
def tscale (c : ℚ) (xs : List ℚ) : List ℚ := xs.map (fun x => c * x)

/-- Sum of squares of the entries: the square of the Euclidean norm. -/
def sqsum (xs : List ℚ) : ℚ := (xs.map (fun x => x * x)).sum

/-- The literal `1e-12` from `SAM.first_step`. -/
def eps12 : ℚ := 1 / 1000000000000

/-- The literal `1e-16` from `ScalableShampoo.step`. -/
def eps16 : ℚ := 1 / 10000000000000000

/-- The abstract square-root function behaves as a square root at input `q`. -/
def SqrtOkAt (f : ℚ → ℚ) (q : ℚ) : Prop := 0 ≤ f q ∧ f q * f q = q

/-! ### SAM (`pytorch_optimizer/sam.py`) -/

/-- A parameter as `SAM` sees it: current value, optional gradient, and the
`state[p]['old_p']` slot (absent until `first_step` fills it). -/
structure SamParam where
  val : List ℚ
  grad : Option (List ℚ)
  oldP : Option (List ℚ)
deriving DecidableEq

/-- A parameter group: `rho` and `adaptive` are stored per group in
`defaults`; `params` is the group's parameter list. -/
structure SamGroup where
  rho : ℚ
  adaptive : Bool
  params : List SamParam
deriving DecidableEq

/-- The vector whose 2-norm `grad_norm` takes per parameter:
`(torch.abs(p) if group['adaptive'] else 1.0) * p.grad`. -/
def samNormedVec (adaptive : Bool) (pval g : List ℚ) : List ℚ :=
  if adaptive then List.zipWith (fun x gi => |x| * gi) pval g else g

/-- The list of per-parameter norms stacked inside `SAM.grad_norm`
(parameters with gradient `None` are skipped). -/
def gradNormStack (f : ℚ → ℚ) (gs : List SamGroup) : List ℚ :=
  gs.flatMap fun gr => gr.params.filterMap fun p =>
    p.grad.map fun g => f (sqsum (samNormedVec gr.adaptive p.val g))

/-- The squared per-parameter norms, in the same order as `gradNormStack`. -/
def samSqList (gs : List SamGroup) : List ℚ :=
  gs.flatMap fun gr => gr.params.filterMap fun p =>
    p.grad.map fun g => sqsum (samNormedVec gr.adaptive p.val g)

/-- `SAM.grad_norm`: the 2-norm of the stacked per-parameter norms. -/
def gradNorm (f : ℚ → ℚ) (gs : List SamGroup) : ℚ :=
  f (sqsum (gradNormStack f gs))

/-- The ascent direction `e_w = (p^2 if adaptive else 1.0) * p.grad * scale`. -/
def samEw (adaptive : Bool) (pval g : List ℚ) (scale : ℚ) : List ℚ :=
  if adaptive then List.zipWith (fun x gi => x * x * gi * scale) pval g
  else g.map (fun gi => gi * scale)

/-- Body of `SAM.first_step` for one parameter: skip if no gradient, else
save `old_p` and perturb `p.add_(e_w)`. -/
def firstStepParam (scale : ℚ) (adaptive : Bool) (p : SamParam) : SamParam :=
  match p.grad with
  | none => p
  | some g => { p with oldP := some p.val, val := tadd p.val (samEw adaptive p.val g scale) }

/-- Body of `SAM.first_step` for one group, with the global norm `gn`
already computed: `scale = rho / (grad_norm + 1e-12)`. -/
def firstStepGroup (gn : ℚ) (gr : SamGroup) : SamGroup :=
  { gr with params := gr.params.map (firstStepParam (gr.rho / (gn + eps12)) gr.adaptive) }

/-- `SAM.first_step` (without the optional `zero_grad`): compute the global
gradient norm once, then perturb every parameter that has a gradient. -/
def firstStep (f : ℚ → ℚ) (gs : List SamGroup) : List SamGroup :=
  gs.map (firstStepGroup (gradNorm f gs))

/-- The restore in `SAM.second_step`: `p.data = self.state[p]['old_p']` for
every parameter with a gradient. -/
def restoreParam (p : SamParam) : SamParam :=
  match p.grad, p.oldP with
  | some _, some o => { p with val := o }
  | _, _ => p

/-- Restore pass of `SAM.second_step` over all groups. -/
def restoreAll (gs : List SamGroup) : List SamGroup :=
  gs.map fun gr => { gr with params := gr.params.map restoreParam }

/-- `SAM.second_step` (without the optional `zero_grad`): restore every
parameter, then delegate to the wrapped base optimizer's `step`. -/
def secondStep (base : List SamGroup → List SamGroup) (gs : List SamGroup) : List SamGroup :=
  base (restoreAll gs)

/-- `zero_grad` as invoked from `first_step(zero_grad=True)`: gradients are
zeroed in place. -/
def zeroGrads (gs : List SamGroup) : List SamGroup :=
  gs.map fun gr =>
    { gr with params := gr.params.map fun p => { p with grad := p.grad.map (fun g => g.map (fun _ => 0)) } }

/-- Message of the `RuntimeError` raised by `SAM.step` without a closure. -/
def samClosureMsg : String := "Sharpness Aware Minimization requires closure"

/-- Outcome of `SAM.step`: the resulting groups, the returned value
(`SAM.step` has no `return` statement, so a successful call returns `None`),
and the raised error, if any. -/
structure SamStepResult where
  groups : List SamGroup
  loss : Option ℚ
  error : Option String
deriving DecidableEq

/-- `SAM.step`: without a closure it raises immediately; with a closure it
runs `first_step(zero_grad=True)`, the closure (modelled as a loss value
paired with the gradient refresh it performs), then `second_step`, and
falls off the end of the function — returning `None`, not the loss. -/
def samStep (f : ℚ → ℚ) (base : List SamGroup → List SamGroup)
    (closure : Option (ℚ × (List SamGroup → List SamGroup))) (gs : List SamGroup) :
    SamStepResult :=
  match closure with
  | none => { groups := gs, loss := none, error := some samClosureMsg }
  | some c =>
      let g1 := zeroGrads (firstStep f gs)
      let g2 := c.2 g1
      { groups := secondStep base g2, loss := none, error := none }

/-- Flattened parameter values, group by group. -/
def samVals (gs : List SamGroup) : List (List ℚ) :=
  gs.flatMap fun gr => gr.params.map (fun p => p.val)

/-- Flattened parameter gradients, group by group. -/
def samGrads (gs : List SamGroup) : List (Option (List ℚ)) :=
  gs.flatMap fun gr => gr.params.map (fun p => p.grad)

/-- Boolean check that two parameter lists agree pointwise on values and
saved `old_p` slots (used to say a gradient refresh touches only grads). -/
def paramsValOldCompat (ps qs : List SamParam) : Bool :=
  ps.length == qs.length &&
  (List.zip ps qs).all fun pq => decide (pq.1.val = pq.2.val) && decide (pq.1.oldP = pq.2.oldP)

/-- Groupwise version of `paramsValOldCompat`. -/
def groupsValOldCompat (as bs : List SamGroup) : Bool :=
  as.length == bs.length &&
  (List.zip as bs).all fun ab => paramsValOldCompat ab.1.params ab.2.params

/-! ### Basic Shampoo (`pytorch_optimizer/optimizer/shampoo.py`, class `Shampoo`) -/

/-- A gradient tensor together with its layout flag (`grad.is_sparse`). -/
structure ShGrad where
  isSparse : Bool
  values : List ℚ
deriving DecidableEq

/-- Per-parameter `Shampoo` state.  The Python state is a string-keyed dict;
each optional field models the presence of the corresponding key
(`momentum_buffer`, `pre_cond_0`, `inv_pre_cond_0`). -/
structure ShState where
  step : ℕ
  momentumBuffer : Option (List ℚ)
  preCond : Option (List (List ℚ))
  invPreCond : Option (List (List ℚ))
deriving DecidableEq

/-- A parameter as `Shampoo` sees it; `st = none` models `len(state) == 0`. -/
structure ShParam where
  val : List ℚ
  grad : Option ShGrad
  st : Option ShState
deriving DecidableEq

/-- `Shampoo` hyperparameters. -/
structure ShHp where
  lr : ℚ
  momentum : ℚ
  weightDecay : ℚ
  preconditioningComputeSteps : ℕ
  matrixEps : ℚ
deriving DecidableEq

/-- Matrix addition (`pre_cond.add_(...)`). -/
def matAdd (A B : List (List ℚ)) : List (List ℚ) := List.zipWith tadd A B

/-- Outer product `grad @ grad.t()` of a 1-D gradient viewed as `(d, 1)`. -/
def outer (u v : List ℚ) : List (List ℚ) := u.map fun x => v.map fun y => x * y

/-- Dot product of two rational vectors. -/
def dotQ (u v : List ℚ) : ℚ := (List.zipWith (· * ·) u v).sum

/-- Row vector times matrix: `grad_t @ inv_pre_cond` for a 1-D gradient. -/
def rowVecMat (v : List ℚ) (M : List (List ℚ)) : List ℚ := M.transpose.map (dotQ v)

/-- `matrix_eps * torch.eye(dim)`. -/
def eyeScaled (eps : ℚ) (d : ℕ) : List (List ℚ) :=
  (List.range d).map fun i => (List.range d).map fun j => if i = j then eps else 0

/-- `grad.new(dim, dim).zero_()`. -/
def zeroMat (d : ℕ) : List (List ℚ) :=
  (List.range d).map fun _ => (List.range d).map fun _ => (0 : ℚ)

/-- First-encounter initialization of `Shampoo` state (source lines 88–96):
`step = 0`, the momentum buffer is a clone of the current gradient when
`momentum > 0`, and the single (1-D) dimension gets `matrix_eps * I` and a
zero inverse. -/
def shInitState (hp : ShHp) (g : List ℚ) : ShState :=
  { step := 0,
    momentumBuffer := if hp.momentum > 0 then some g else none,
    preCond := some (eyeScaled hp.matrixEps g.length),
    invPreCond := some (zeroMat g.length) }

/-- The destructive update `Shampoo.step` applies to `p.grad` in place
(source lines 98–102): the momentum blend
`grad.mul_(1 - momentum).add_(momentum_buffer, alpha=momentum)` followed by
the coupled weight decay `grad.add_(p, alpha=weight_decay)`. -/
def shMutatedGrad (hp : ShHp) (pval : List ℚ) (buf : Option (List ℚ)) (g : List ℚ) : List ℚ :=
  let g1 := if hp.momentum > 0 then tadd (tscale (1 - hp.momentum) g) (tscale hp.momentum (buf.getD [])) else g
  if hp.weightDecay > 0 then tadd g1 (tscale hp.weightDecay pval) else g1

/-- One dense-gradient parameter update of `Shampoo.step` (1-D parameter, so
the dimension loop runs once with exponent `-1.0/order = -1`):  lazily
initialize state, mutate the gradient in place, accumulate `grad @ grad.t()`
into the statistics matrix, recompute the inverse root every
`preconditioning_compute_steps` steps via the abstract `compute_power_svd`
(`psvd`, from the out-of-scope `shampoo_utils.py`), contract, store the
result as the new momentum buffer and descend `p.add_(grad, alpha=-lr)`. -/
def shStepParam (hp : ShHp) (psvd : List (List ℚ) → ℚ → List (List ℚ))
    (p : ShParam) (g : List ℚ) : ShParam :=
  let st := p.st.getD (shInitState hp g)
  let g2 := shMutatedGrad hp p.val st.momentumBuffer g
  let M := matAdd (st.preCond.getD []) (outer g2 g2)
  let inv := if st.step % hp.preconditioningComputeSteps = 0 then psvd M (-1) else st.invPreCond.getD []
  let gOut := rowVecMat g2 inv
  { val := tadd p.val (tscale (-hp.lr) gOut),
    grad := some { isSparse := false, values := g2 },
    st := some { step := st.step + 1, momentumBuffer := some gOut,
                 preCond := some M, invPreCond := some inv } }

/-- What `Shampoo.step` does to one parameter when no error interrupts the
pass: skip it without a gradient, update it otherwise. -/
def shProcessOne (hp : ShHp) (psvd : List (List ℚ) → ℚ → List (List ℚ)) (p : ShParam) : ShParam :=
  match p.grad with
  | none => p
  | some g => if g.isSparse then p else shStepParam hp psvd p g.values

/-- The sequential parameter loop of `Shampoo.step`.  A sparse gradient
raises `NoSparseGradientError` at first encounter (`Bool` result `true`):
the offending parameter and all later ones are left untouched, while
parameters already processed keep their committed in-place updates. -/
def shRunParams (hp : ShHp) (psvd : List (List ℚ) → ℚ → List (List ℚ)) :
    List ShParam → List ShParam × Bool
  | [] => ([], false)
  | p :: rest =>
    match p.grad with
    | none =>
        let r := shRunParams hp psvd rest
        (p :: r.1, r.2)
    | some g =>
        if g.isSparse then (p :: rest, true)
        else
          let r := shRunParams hp psvd rest
          (shStepParam hp psvd p g.values :: r.1, r.2)

/-- Outcome of a full optimizer `step` call: the parameters, whether
`NoSparseGradientError` was raised, and the value the call returns
(the closure's loss when a closure was supplied, else `None`). -/
structure StepOutcome where
  params : List ShParam
  raised : Bool
  loss : Option ℚ
deriving DecidableEq

/-- `Shampoo.step(closure)`: evaluate the closure first (its loss is the
return value), then run the parameter loop. -/
def shampooStep (hp : ShHp) (psvd : List (List ℚ) → ℚ → List (List ℚ))
    (closure : Option ℚ) (ps : List ShParam) : StepOutcome :=
  let r := shRunParams hp psvd ps
  { params := r.1, raised := r.2, loss := closure }

/-- `Shampoo.reset` (source lines 62–68): for every parameter it sets
`state['step'] = 0` and touches nothing else — the momentum buffer and the
`pre_cond`/`inv_pre_cond` matrices keep their previous entries (for a
parameter never stepped, the defaultdict access creates a state holding
only `step`). -/
def shResetParam (p : ShParam) : ShParam :=
  let st2 : ShState :=
    { step := 0,
      momentumBuffer := p.st.bind (fun s => s.momentumBuffer),
      preCond := p.st.bind (fun s => s.preCond),
      invPreCond := p.st.bind (fun s => s.invPreCond) }
  { p with st := some st2 }

/-- `Shampoo.reset` over the parameter list. -/
def shampooReset (ps : List ShParam) : List ShParam := ps.map shResetParam

/-! ### Scalable Shampoo (`pytorch_optimizer/optimizer/shampoo.py`, class `ScalableShampoo`)

The `PreConditioner` and `Graft` classes come from `shampoo_utils.py`,
which is not among the sources in scope; they are abstracted as records of
operations over opaque state types `P` and `G`. -/

/-- Abstract interface of the missing `PreConditioner` class: construction
from a parameter, `add_statistics`, `compute_pre_conditioners`,
and `preconditioned_grad`. -/
structure PreOps (P : Type) where
  fresh : List ℚ → P
  addStatistics : P → List ℚ → P
  compute : P → P
  pcGrad : P → List ℚ → List ℚ

/-- Abstract interface of the missing `Graft` class hierarchy:
construction from a parameter, `add_statistics`, `precondition_gradient`,
and access to the graft's internal momentum buffer. -/
structure GraftOps (G : Type) where
  fresh : List ℚ → G
  addStatistics : G → List ℚ → ℚ → G
  preconditionGradient : G → List ℚ → List ℚ
  momentumOf : G → List ℚ
  setMomentum : G → List ℚ → G

/-- Modelled from the spec: `Graft.update_momentum(grad, beta1)` from the
missing `shampoo_utils.py` — the spec (§4.3) says it maintains an
independent momentum buffer `m <- beta1*m + grad` and returns it. -/
def graftUpdateMomentum {G : Type} (gops : GraftOps G) (g : G) (grad : List ℚ) (beta1 : ℚ) :
    List ℚ × G :=
  let m := tadd (tscale beta1 (gops.momentumOf g)) grad
  (m, gops.setMomentum g m)

/-- `ScalableShampoo` hyperparameters; `graftNone` models
`graft_type == LayerWiseGrafting.NONE`. -/
structure ScHp where
  lr : ℚ
  beta1 : ℚ
  beta2 : ℚ
  weightDecay : ℚ
  decoupledWeightDecay : Bool
  decoupledLearningRate : Bool
  startPreconditioningStep : ℕ
  preconditioningComputeSteps : ℕ
  statisticsComputeSteps : ℕ
  graftNone : Bool
  nesterov : Bool
  movingAverageForMomentum : Bool
deriving DecidableEq

/-- `ScalableShampoo.is_precondition_step` (source lines 268–269):
`step >= self.start_preconditioning_step`. -/
def isPreconditionStep (hp : ScHp) (step : ℕ) : Bool :=
  hp.startPreconditioningStep ≤ step

/-- Per-parameter `ScalableShampoo` state. -/
structure ScState (P G : Type) where
  step : ℕ
  momentum : List ℚ
  preConditioner : P
  graft : G

/-- A parameter as `ScalableShampoo` sees it. -/
structure ScParam (P G : Type) where
  val : List ℚ
  grad : Option ShGrad
  st : Option (ScState P G)

/-- First-encounter initialization (source lines 289–312), also the body of
`ScalableShampoo.reset` (lines 238–266): `step = 0`, zero momentum, a fresh
`PreConditioner` and a fresh `Graft`. -/
def scInitState {P G : Type} (pops : PreOps P) (gops : GraftOps G) (pval : List ℚ) :
    ScState P G :=
  { step := 0, momentum := List.replicate pval.length 0,
    preConditioner := pops.fresh pval, graft := gops.fresh pval }

/-- `graft.add_statistics(grad, beta2)` on the abstract graft state. -/
def scGraft1 {G : Type} (hp : ScHp) (gops : GraftOps G) (g0 : G) (g : List ℚ) : G :=
  gops.addStatistics g0 g hp.beta2

/-- The pre-conditioner statistics/compute schedule (source lines 320–323). -/
def scPcUpdated {P : Type} (hp : ScHp) (pops : PreOps P) (pc : P) (g : List ℚ) (n : ℕ) : P :=
  let pc1 := if n % hp.statisticsComputeSteps = 0 then pops.addStatistics pc g else pc
  if n % hp.preconditioningComputeSteps = 0 then pops.compute pc1 else pc1

/-- `graft_grad = graft.precondition_gradient(grad * pre_conditioner_multiplier)`
with `pre_conditioner_multiplier = lr if not decoupled_learning_rate else 1.0`
(source lines 325–326); computed from the original gradient, before the
in-place rescale. -/
def scGraftGrad0 {G : Type} (hp : ScHp) (gops : GraftOps G) (graft1 : G) (g : List ℚ) : List ℚ :=
  gops.preconditionGradient graft1 (tscale (if hp.decoupledLearningRate then 1 else hp.lr) g)

/-- `shampoo_grad` before the rescale (source lines 327–329): the raw
gradient object itself until preconditioning is active, else the fresh
tensor `pre_conditioner.preconditioned_grad(grad)`. -/
def scShampooGrad0 {P : Type} (pops : PreOps P) (pc2 : P) (g : List ℚ) (isPre : Bool) : List ℚ :=
  if isPre then pops.pcGrad pc2 g else g

/-- The grafting rescale factor `graft_norm / (shampoo_norm + 1e-16)`
(source lines 331–335), with `nrm` the runtime's `torch.norm`. -/
def scRescaleFactor (nrm : List ℚ → ℚ) (graftGrad shampooGrad : List ℚ) : ℚ :=
  nrm graftGrad / (nrm shampooGrad + eps16)

/-- `shampoo_grad.mul_(graft_norm / (shampoo_norm + 1e-16))`, skipped
entirely when `graft_type == LayerWiseGrafting.NONE`. -/
def scRescaled (hp : ScHp) (nrm : List ℚ → ℚ) (graftGrad0 shampooGrad0 : List ℚ) : List ℚ :=
  if hp.graftNone then shampooGrad0
  else tscale (scRescaleFactor nrm graftGrad0 shampooGrad0) shampooGrad0

/-- The weight-decay stage (source lines 337–343): coupled decay adds
`weight_decay * p`, decoupled decay multiplies by `1 - lr * weight_decay`. -/
def scWdApply (hp : ScHp) (pval v : List ℚ) : List ℚ :=
  if hp.weightDecay > 0 then
    if hp.decoupledWeightDecay then tscale (1 - hp.lr * hp.weightDecay) v
    else tadd v (tscale hp.weightDecay pval)
  else v

/-- One dense-gradient parameter update of `ScalableShampoo.step` (source
lines 314–361), after lazy state initialization, with the aliasing of the
source made explicit: when `is_precondition_step` is false, `shampoo_grad`
is the very gradient tensor, so the in-place rescale and weight-decay
mutations are visible through `p.grad` by the time
`graft.update_momentum(grad, beta1)` reads it.  (When preconditioning is
active and Nesterov is on, the final blend mutates `state['momentum']` in
place; whether the tensor `update_momentum` returns aliases the graft's
internal buffer is decided by the missing `shampoo_utils.py`, so the stored
graft state keeps the pre-blend value the spec prescribes.) -/
def scStepCore {P G : Type} (hp : ScHp) (pops : PreOps P) (gops : GraftOps G)
    (nrm : List ℚ → ℚ) (pval g : List ℚ) (st : ScState P G) : ScParam P G :=
  let n := st.step + 1
  let isPre := isPreconditionStep hp n
  let graft1 := scGraft1 hp gops st.graft g
  let pc2 := scPcUpdated hp pops st.preConditioner g n
  let graftGrad0 := scGraftGrad0 hp gops graft1 g
  let shampooGrad1 := scRescaled hp nrm graftGrad0 (scShampooGrad0 pops pc2 g isPre)
  let shampooGrad2 := scWdApply hp pval shampooGrad1
  let graftGrad1 := scWdApply hp pval graftGrad0
  let gradNow := if isPre then g else shampooGrad2
  let momentum1 := tadd (tscale hp.beta1 st.momentum) shampooGrad2
  let gm := graftUpdateMomentum gops graft1 gradNow hp.beta1
  let mu0 := if isPre then momentum1 else gm.1
  let wd0 := if isPre then shampooGrad2 else graftGrad1
  let w : ℚ := if hp.movingAverageForMomentum then 1 - hp.beta1 else 1
  let update := if hp.nesterov then tadd (tscale hp.beta1 mu0) (tscale w wd0) else mu0
  let momentumFinal := if isPre && hp.nesterov then update else momentum1
  { val := tadd pval (tscale (-hp.lr) update),
    grad := some { isSparse := false, values := gradNow },
    st := some { step := n, momentum := momentumFinal, preConditioner := pc2, graft := gm.2 } }

/-- One parameter update including the lazy state initialization. -/
def scStepParam {P G : Type} (hp : ScHp) (pops : PreOps P) (gops : GraftOps G)
    (nrm : List ℚ → ℚ) (p : ScParam P G) (g : List ℚ) : ScParam P G :=
  scStepCore hp pops gops nrm p.val g (p.st.getD (scInitState pops gops p.val))

/-- What `ScalableShampoo.step` does to one parameter when no error
interrupts the pass. -/
def scProcessOne {P G : Type} (hp : ScHp) (pops : PreOps P) (gops : GraftOps G)
    (nrm : List ℚ → ℚ) (p : ScParam P G) : ScParam P G :=
  match p.grad with
  | none => p
  | some g => if g.isSparse then p else scStepParam hp pops gops nrm p g.values

/-- The sequential parameter loop of `ScalableShampoo.step`, with the same
sparse-gradient abort behaviour as the basic variant (source lines 284–286). -/
def scRunParams {P G : Type} (hp : ScHp) (pops : PreOps P) (gops : GraftOps G)
    (nrm : List ℚ → ℚ) : List (ScParam P G) → List (ScParam P G) × Bool
  | [] => ([], false)
  | p :: rest =>
    match p.grad with
    | none =>
        let r := scRunParams hp pops gops nrm rest
        (p :: r.1, r.2)
    | some g =>
        if g.isSparse then (p :: rest, true)
        else
          let r := scRunParams hp pops gops nrm rest
          (scStepParam hp pops gops nrm p g.values :: r.1, r.2)

/-- Outcome of `ScalableShampoo.step`. -/
structure ScOutcome (P G : Type) where
  params : List (ScParam P G)
  raised : Bool
  loss : Option ℚ

/-- `ScalableShampoo.step(closure)`. -/
def scalableStep {P G : Type} (hp : ScHp) (pops : PreOps P) (gops : GraftOps G)
    (nrm : List ℚ → ℚ) (closure : Option ℚ) (ps : List (ScParam P G)) : ScOutcome P G :=
  let r := scRunParams hp pops gops nrm ps
  { params := r.1, raised := r.2, loss := closure }

/-- `ScalableShampoo.reset` (source lines 238–266): full reinitialization
of step counter, momentum, `PreConditioner` and `Graft`. -/
def scResetParam {P G : Type} (pops : PreOps P) (gops : GraftOps G) (p : ScParam P G) :
    ScParam P G :=
  { p with st := some (scInitState pops gops p.val) }

/-- The grafted (non-Shampoo) update path: the value `ScalableShampoo.step`
assigns to the parameter while `is_precondition_step` is false, written
without any reference to the `PreConditioner` operations — only graft
quantities and the raw gradient enter it.  (The rescale of the aliased
gradient object is part of this path: before the preconditioning start the
rescale reads `norm(grad)` itself, and the mutated object is what
`update_momentum` accumulates.) -/
def scGraftPathVal {G : Type} (hp : ScHp) (gops : GraftOps G) (nrm : List ℚ → ℚ)
    (pval g : List ℚ) (graft0 : G) : List ℚ :=
  let graft1 := scGraft1 hp gops graft0 g
  let graftGrad0 := scGraftGrad0 hp gops graft1 g
  let shampooGrad2 := scWdApply hp pval (scRescaled hp nrm graftGrad0 g)
  let graftGrad1 := scWdApply hp pval graftGrad0
  let gm := tadd (tscale hp.beta1 (gops.momentumOf graft1)) shampooGrad2
  let w : ℚ := if hp.movingAverageForMomentum then 1 - hp.beta1 else 1
  let update := if hp.nesterov then tadd (tscale hp.beta1 gm) (tscale w graftGrad1) else gm
  tadd pval (tscale (-hp.lr) update)

/-- The Shampoo (preconditioned) update path: the value the step assigns to
the parameter once `is_precondition_step` holds; the update direction comes
from `pre_conditioner.preconditioned_grad` and the persistent momentum. -/
def scShampooPathVal {P G : Type} (hp : ScHp) (pops : PreOps P) (gops : GraftOps G)
    (nrm : List ℚ → ℚ) (pval g : List ℚ) (st : ScState P G) : List ℚ :=
  let n := st.step + 1
  let graft1 := scGraft1 hp gops st.graft g
  let pc2 := scPcUpdated hp pops st.preConditioner g n
  let graftGrad0 := scGraftGrad0 hp gops graft1 g
  let s2 := scWdApply hp pval (scRescaled hp nrm graftGrad0 (pops.pcGrad pc2 g))
  let momentum1 := tadd (tscale hp.beta1 st.momentum) s2
  let w : ℚ := if hp.movingAverageForMomentum then 1 - hp.beta1 else 1
  let update := if hp.nesterov then tadd (tscale hp.beta1 momentum1) (tscale w s2) else momentum1
  tadd pval (tscale (-hp.lr) update)

/-! ### Concrete instances for witnesses and counterexamples -/

/-- A square-root table adequate for the SAM instances below. -/
def sqrtW : ℚ → ℚ := fun q => if q = 25 then 5 else 0

/-- A single SAM parameter with value `[1, 2]` and gradient `[3, 4]`. -/
def samPW : SamParam := { val := [1, 2], grad := some [3, 4], oldP := none }

/-- One non-adaptive SAM group with `rho = 1/10` holding `samPW`. -/
def samGsW : List SamGroup := [{ rho := 1/10, adaptive := false, params := [samPW] }]

/-- An identity base optimizer for SAM instances. -/
def samBaseId : List SamGroup → List SamGroup := fun gs => gs

/-- A concrete stand-in for `compute_power_svd`. -/
def psvdId : List (List ℚ) → ℚ → List (List ℚ) := fun M _ => M

/-- Concrete `Shampoo` hyperparameters with positive momentum and no weight
decay. -/
def hpW : ShHp :=
  { lr := 1/10, momentum := 1/2, weightDecay := 0,
    preconditioningComputeSteps := 1, matrixEps := 1/1000000 }

/-- Concrete `Shampoo` hyperparameters with weight decay `1`. -/
def hpWwd : ShHp :=
  { lr := 1/10, momentum := 0, weightDecay := 1,
    preconditioningComputeSteps := 1, matrixEps := 1/1000000 }

/-- A fresh one-element parameter with dense gradient `[1]`. -/
def shPW : ShParam := { val := [1], grad := some { isSparse := false, values := [1] }, st := none }

/-- A one-element parameter with a sparse gradient. -/
def shPSparse : ShParam := { val := [2], grad := some { isSparse := true, values := [3] }, st := none }

/-- A stepped parameter whose state still holds stale buffers, for the
`reset` counterexample. -/
def shPC4 : ShParam :=
  { val := [1], grad := none,
    st := some { step := 3, momentumBuffer := some [5], preCond := some [[2]], invPreCond := some [[7]] } }

/-- A trivial concrete `PreConditioner` instance over `Unit`. -/
def popsW : PreOps Unit :=
  { fresh := fun _ => (), addStatistics := fun s _ => s, compute := fun s => s,
    pcGrad := fun _ g => tscale 3 g }

/-- A concrete `Graft` instance whose state is its momentum buffer. -/
def gopsW : GraftOps (List ℚ) :=
  { fresh := fun v => v.map (fun _ => 0), addStatistics := fun s _ _ => s,
    preconditionGradient := fun _ v => tscale 2 v,
    momentumOf := fun s => s, setMomentum := fun _ m => m }

/-- A concrete stand-in for `torch.norm` over rational vectors. -/
def nrmW : List ℚ → ℚ := fun v => sqsum v

/-- A concrete stand-in for `torch.norm` that is an actual 2-norm on the
vectors the witnesses use. -/
def nrmNormW : List ℚ → ℚ := fun v => sqrtW (sqsum v)

/-- Concrete `ScalableShampoo` hyperparameters: grafting active, Nesterov,
preconditioning starting at step 5. -/
def schpW : ScHp :=
  { lr := 1/10, beta1 := 1/2, beta2 := 3/4, weightDecay := 0,
    decoupledWeightDecay := false, decoupledLearningRate := true,
    startPreconditioningStep := 5, preconditioningComputeSteps := 1,
    statisticsComputeSteps := 1, graftNone := false,
    nesterov := true, movingAverageForMomentum := false }

/-- The same hyperparameters with grafting disabled. -/
def schpWNone : ScHp := { schpW with graftNone := true }

/-- A `ScalableShampoo` state at step count 0 (next step is 1). -/
def scStW : ScState Unit (List ℚ) :=
  { step := 0, momentum := [0], preConditioner := (), graft := [1] }

/-- A `ScalableShampoo` state at step count 7 (preconditioning active). -/
def scStW7 : ScState Unit (List ℚ) :=
  { step := 7, momentum := [0], preConditioner := (), graft := [1] }

/-- A fresh scalable parameter with dense gradient `[1]`. -/
def scPW : ScParam Unit (List ℚ) :=
  { val := [1], grad := some { isSparse := false, values := [1] }, st := none }

/-- A scalable parameter with a sparse gradient. -/
def scPSparse : ScParam Unit (List ℚ) :=
  { val := [2], grad := some { isSparse := true, values := [3] }, st := none }

/-! ### Helper lemmas -/

/-- Mapping a function over a list is pointwise related to the list. -/
theorem forall₂_map_self {α β : Type} (R : α → β → Prop) (F : α → β) (l : List α)
    (h : ∀ a ∈ l, R a (F a)) : List.Forall₂ R l (l.map F) := by
  induction l with
  | nil => exact List.Forall₂.nil
  | cons a t ih =>
      exact List.Forall₂.cons (h a (List.mem_cons_self a t))
        (ih fun b hb => h b (List.mem_cons_of_mem a hb))

/-- The first-step momentum blend with a buffer cloned from the gradient
itself leaves the gradient unchanged. -/
theorem blend_self (m : ℚ) (g : List ℚ) : tadd (tscale (1 - m) g) (tscale m g) = g := by
  induction g with
  | nil => rfl
  | cons x t ih =>
      simp only [tadd, tscale, List.map_cons, List.zipWith_cons_cons] at ih ⊢
      rw [ih]
      ring_nf

/-- Squared norm of a rescaled vector. -/
theorem sqsum_tscale (c : ℚ) (v : List ℚ) : sqsum (tscale c v) = c * c * sqsum v := by
  induction v with
  | nil => simp [sqsum, tscale]
  | cons x t ih =>
      simp only [sqsum, tscale, List.map_cons, List.sum_cons] at ih ⊢
      rw [ih]
      ring

/-- Summing the squares of correct square roots recovers the list's sum. -/
theorem sqsum_map_sqrt (f : ℚ → ℚ) (L : List ℚ) (h : ∀ q ∈ L, SqrtOkAt f q) :
    sqsum (L.map f) = L.sum := by
  induction L with
  | nil => rfl
  | cons q t ih =>
      simp only [sqsum, List.map_cons, List.sum_cons] at ih ⊢
      rw [(h q (List.mem_cons_self q t)).2, ih fun r hr => h r (List.mem_cons_of_mem q hr)]

/-- Elementwise addition of equal-length lists cancels on the left. -/
theorem tadd_left_cancel (a : List ℚ) : ∀ b c : List ℚ,
    b.length = a.length → c.length = a.length → tadd a b = tadd a c → b = c := by
  induction a with
  | nil =>
      intro b c hb hc _
      cases b with
      | nil =>
          cases c with
          | nil => rfl
          | cons y t => exact absurd hc (by simp)
      | cons x t => exact absurd hb (by simp)
  | cons x t ih =>
      intro b c hb hc he
      cases b with
      | nil => exact absurd hb (by simp)
      | cons y u =>
          cases c with
          | nil => exact absurd hc (by simp)
          | cons z v =>
              simp only [tadd, List.zipWith_cons_cons, List.cons.injEq] at he
              have h1 : y = z := by linarith [he.1]
              have h2 : u = v := ih u v (by simpa using hb) (by simpa using hc)
                (by simpa [tadd] using he.2)
              rw [h1, h2]

/-! ### Claim C7 — SAM's combined step without a closure -/

/-- C7: invoking `SAM.step` with `closure = None` raises the usage error
immediately, returning nothing and leaving every parameter and every piece
of optimizer state untouched. -/
theorem sam_step_without_closure_raises (f : ℚ → ℚ)
    (base : List SamGroup → List SamGroup) (gs : List SamGroup) :
    samStep f base none gs =
      { groups := gs, loss := none, error := some samClosureMsg } := rfl

/-! ### Claim C5 — what `step(closure)` returns -/

/-- C5 counterexample: `SAM.step` given a closure producing loss `7`
returns `None`, not the loss — the claim that every optimizer's `step`
returns the closure's loss is false for `SAM`. -/
theorem sam_step_loss_counterexample :
    (samStep sqrtW samBaseId (some (7, fun gs => gs)) samGsW).loss = none ∧
    (none : Option ℚ) ≠ some 7 := ⟨rfl, by decide⟩

/-- C5 amended: `Shampoo.step` and `ScalableShampoo.step` return the
closure's loss when one is supplied and `None` otherwise (whenever the
step completes without raising); `SAM.step` raises without a closure and
returns `None` even when a closure is supplied. -/
theorem step_returns_closure_loss_amended {P G : Type} (hp : ShHp)
    (psvd : List (List ℚ) → ℚ → List (List ℚ)) (schp : ScHp) (pops : PreOps P)
    (gops : GraftOps G) (nrm : List ℚ → ℚ) (c : Option ℚ) (ps : List ShParam)
    (sps : List (ScParam P G)) (f : ℚ → ℚ) (base : List SamGroup → List SamGroup)
    (l : ℚ) (refresh : List SamGroup → List SamGroup) (gs : List SamGroup) :
    ((shampooStep hp psvd c ps).raised = false → (shampooStep hp psvd c ps).loss = c) ∧
    ((scalableStep schp pops gops nrm c sps).raised = false →
      (scalableStep schp pops gops nrm c sps).loss = c) ∧
    (samStep f base none gs).error = some samClosureMsg ∧
    (samStep f base (some (l, refresh)) gs).loss = none :=
  ⟨fun _ => rfl, fun _ => rfl, rfl, rfl⟩

/-- C5 witness: concrete dense one-parameter instances; both preconditioned
optimizers return the supplied loss `7`. -/
theorem step_returns_closure_loss_amended_witness :
    ((shampooStep hpW psvdId (some 7) [shPW]).raised = false ∧
      (shampooStep hpW psvdId (some 7) [shPW]).loss = some 7) ∧
    ((scalableStep schpW popsW gopsW nrmW (some 7) [scPW]).raised = false ∧
      (scalableStep schpW popsW gopsW nrmW (some 7) [scPW]).loss = some 7) :=
  ⟨⟨by decide,
    (step_returns_closure_loss_amended hpW psvdId schpW popsW gopsW nrmW (some 7) [shPW]
      [scPW] sqrtW samBaseId 7 (fun gs => gs) samGsW).1 (by decide)⟩,
   ⟨by decide,
    (step_returns_closure_loss_amended hpW psvdId schpW popsW gopsW nrmW (some 7) [shPW]
      [scPW] sqrtW samBaseId 7 (fun gs => gs) samGsW).2.1 (by decide)⟩⟩

/-! ### Claim C4 — what `reset()` reinitializes -/

/-- C4 counterexample: `Shampoo.reset` on a stepped parameter zeroes only
the step counter; the stale momentum buffer `[5]` and the stale
`pre_cond`/`inv_pre_cond` matrices survive, refuting the claim that they
are reinitialized. -/
theorem reset_counterexample :
    shampooReset [shPC4] =
      [{ val := [1], grad := none,
         st := some { step := 0, momentumBuffer := some [5],
                      preCond := some [[2]], invPreCond := some [[7]] } }] ∧
    (some [5] : Option (List ℚ)) ≠ none := ⟨by decide, by decide⟩

/-- C4 amended: `ScalableShampoo.reset` clears the step counter and
reinstalls zero momentum, a fresh `PreConditioner` and a fresh `Graft` for
every tracked parameter, but `Shampoo.reset` only sets the step counter to
zero — its momentum buffer and per-dimension matrices are carried over
unchanged. -/
theorem reset_amended {P G : Type} (pops : PreOps P) (gops : GraftOps G)
    (p : ScParam P G) (q : ShParam) :
    (scResetParam pops gops p).st =
      some { step := 0, momentum := List.replicate p.val.length 0,
             preConditioner := pops.fresh p.val, graft := gops.fresh p.val } ∧
    (scResetParam pops gops p).val = p.val ∧
    (shResetParam q).st =
      some { step := 0, momentumBuffer := q.st.bind (fun s => s.momentumBuffer),
             preCond := q.st.bind (fun s => s.preCond),
             invPreCond := q.st.bind (fun s => s.invPreCond) } ∧
    (shResetParam q).val = q.val ∧ (shResetParam q).grad = q.grad :=
  ⟨rfl, rfl, rfl, rfl, rfl⟩

/-! ### Claim C9 — `Shampoo.step` mutates `p.grad` in place -/

/-- C9 counterexample: with `momentum = 1/2 > 0`, no weight decay and a
fresh state, the momentum buffer is initialized to a clone of the gradient,
so the in-place blend leaves the stored gradient equal to the supplied
gradient `[1]` — the claim that it "no longer equals" the supplied
gradient fails. -/
theorem shampoo_grad_mutation_counterexample :
    hpW.momentum > 0 ∧
    (shStepParam hpW psvdId shPW [1]).grad = some { isSparse := false, values := [1] } := by
  constructor
  · norm_num [hpW]
  · norm_num [shStepParam, shMutatedGrad, shInitState, hpW, shPW, tadd, tscale]

/-- C9 amended: `Shampoo.step` applies the momentum blend and the coupled
weight decay destructively to `p.grad`, leaving
`(1-momentum)*g + momentum*buffer (+ weight_decay*p)` in the gradient
buffer; the stored gradient differs from the supplied one exactly when that
expression does — in particular on a first step with no weight decay the
buffer is a clone of the gradient and the value is unchanged. -/
theorem shampoo_grad_mutation_amended (hp : ShHp)
    (psvd : List (List ℚ) → ℚ → List (List ℚ)) (p : ShParam) (g : List ℚ) :
    (shStepParam hp psvd p g).grad =
      some { isSparse := false,
             values := shMutatedGrad hp p.val (p.st.getD (shInitState hp g)).momentumBuffer g } ∧
    (p.st = none → hp.weightDecay ≤ 0 →
      (shStepParam hp psvd p g).grad = some { isSparse := false, values := g }) ∧
    (shMutatedGrad hp p.val (p.st.getD (shInitState hp g)).momentumBuffer g ≠ g →
      (shStepParam hp psvd p g).grad ≠ some { isSparse := false, values := g }) := by
  refine ⟨rfl, ?_, ?_⟩
  · intro hst hwd
    have hmut : shMutatedGrad hp p.val ((shInitState hp g).momentumBuffer) g = g := by
      by_cases hm : hp.momentum > 0
      · simp [shMutatedGrad, shInitState, hm, not_lt.mpr hwd, blend_self]
      · simp [shMutatedGrad, shInitState, hm, not_lt.mpr hwd]
    simp only [shStepParam, hst, Option.getD_none]
    exact congrArg (fun v => some (ShGrad.mk false v)) hmut
  · intro hne he
    apply hne
    have h1 : (shStepParam hp psvd p g).grad =
        some { isSparse := false,
               values := shMutatedGrad hp p.val (p.st.getD (shInitState hp g)).momentumBuffer g } := rfl
    rw [h1] at he
    simpa using he

/-- C9 amended witness: the fresh no-weight-decay instance keeps `[1]`
unchanged, while weight decay `1` on value `[1]` stores `[2] ≠ [1]`. -/
theorem shampoo_grad_mutation_amended_witness :
    (shPW.st = none ∧ hpW.weightDecay ≤ 0 ∧
      (shStepParam hpW psvdId shPW [1]).grad = some { isSparse := false, values := [1] }) ∧
    (shMutatedGrad hpWwd shPW.val (shPW.st.getD (shInitState hpWwd [1])).momentumBuffer [1] ≠ [1] ∧
      (shStepParam hpWwd psvdId shPW [1]).grad ≠ some { isSparse := false, values := [1] }) :=
  ⟨⟨rfl, by norm_num [hpW],
    (shampoo_grad_mutation_amended hpW psvdId shPW [1]).2.1 rfl (by norm_num [hpW])⟩,
   ⟨by norm_num [shMutatedGrad, hpWwd, shPW, shInitState, tadd, tscale],
    (shampoo_grad_mutation_amended hpWwd psvdId shPW [1]).2.2
      (by norm_num [shMutatedGrad, hpWwd, shPW, shInitState, tadd, tscale])⟩⟩

/-! ### Claim C2 — `SAM.first_step` ascent -/

/-- Taking norms commutes with collecting the per-parameter squared sums. -/
theorem filterMap_norm_comm (f : ℚ → ℚ) (ad : Bool) (ps : List SamParam) :
    (ps.filterMap fun p => p.grad.map fun g => f (sqsum (samNormedVec ad p.val g))) =
    (ps.filterMap fun p => p.grad.map fun g => sqsum (samNormedVec ad p.val g)).map f := by
  induction ps with
  | nil => rfl
  | cons p t ih => cases hg : p.grad <;> simp [List.filterMap_cons, hg, ih]

/-- The stacked norms are the square roots of the squared per-parameter sums. -/
theorem gradNormStack_eq_map (f : ℚ → ℚ) (gs : List SamGroup) :
    gradNormStack f gs = (samSqList gs).map f := by
  induction gs with
  | nil => rfl
  | cons gr t ih =>
      simp only [gradNormStack, samSqList, List.flatMap_cons, List.map_append] at ih ⊢
      rw [filterMap_norm_comm, ih]

/-- C2: in the non-adaptive case, `SAM.first_step` saves each parameter's
pre-call value in `old_p` and moves the parameter by exactly
`rho * grad / (grad_norm + 1e-12)`, where `grad_norm` is the global 2-norm
of all gradients across all parameter groups (its square is the total sum
of squared gradient entries). -/
theorem sam_first_step_exact (f : ℚ → ℚ) (gs : List SamGroup)
    (hna : ∀ gr ∈ gs, gr.adaptive = false)
    (h1 : ∀ q ∈ samSqList gs, SqrtOkAt f q)
    (h2 : SqrtOkAt f (sqsum (gradNormStack f gs))) :
    (0 ≤ gradNorm f gs ∧ gradNorm f gs * gradNorm f gs = (samSqList gs).sum) ∧
    List.Forall₂ (fun gr gr' =>
      List.Forall₂ (fun p p' =>
        (p.grad = none → p' = p) ∧
        ∀ g, p.grad = some g →
          p'.val = tadd p.val (tscale (gr.rho / (gradNorm f gs + eps12)) g) ∧
          p'.oldP = some p.val ∧ p'.grad = some g) gr.params gr'.params)
      gs (firstStep f gs) := by
  constructor
  · exact ⟨h2.1, by rw [gradNorm, h2.2, gradNormStack_eq_map, sqsum_map_sqrt f _ h1]⟩
  · apply forall₂_map_self
    intro gr hgr
    have hparams : (firstStepGroup (gradNorm f gs) gr).params =
        gr.params.map (firstStepParam (gr.rho / (gradNorm f gs + eps12)) gr.adaptive) := rfl
    rw [hparams]
    apply forall₂_map_self
    intro p _
    constructor
    · intro hg
      simp [firstStepParam, hg]
    · intro g hg
      have had := hna gr hgr
      refine ⟨?_, ?_, ?_⟩
      · simp [firstStepParam, hg, samEw, had, tscale, mul_comm]
      · simp [firstStepParam, hg]
      · simp [firstStepParam, hg]

/-- C2 witness: one non-adaptive group, value `[1, 2]`, gradient `[3, 4]`,
global norm `5`. -/
theorem sam_first_step_exact_witness :
    (∀ gr ∈ samGsW, gr.adaptive = false) ∧
    ((0 ≤ gradNorm sqrtW samGsW ∧
      gradNorm sqrtW samGsW * gradNorm sqrtW samGsW = (samSqList samGsW).sum) ∧
    List.Forall₂ (fun gr gr' =>
      List.Forall₂ (fun p p' =>
        (p.grad = none → p' = p) ∧
        ∀ g, p.grad = some g →
          p'.val = tadd p.val (tscale (gr.rho / (gradNorm sqrtW samGsW + eps12)) g) ∧
          p'.oldP = some p.val ∧ p'.grad = some g) gr.params gr'.params)
      samGsW (firstStep sqrtW samGsW)) :=
  ⟨by decide,
   sam_first_step_exact sqrtW samGsW (by decide)
     (by norm_num [samSqList, samGsW, samPW, samNormedVec, sqsum, SqrtOkAt, sqrtW,
       List.filterMap_cons, List.flatMap_cons, List.flatMap_nil, List.filterMap_nil])
     (by norm_num [gradNormStack, samSqList, samGsW, samPW, samNormedVec, sqsum, SqrtOkAt, sqrtW,
       List.filterMap_cons, List.flatMap_cons, List.flatMap_nil, List.filterMap_nil])⟩

/-! ### Claim C3 — `SAM.second_step` restores before delegating -/

/-- Restoring never touches the gradient slot. -/
theorem restoreParam_grad (p : SamParam) : (restoreParam p).grad = p.grad := by
  cases hg : p.grad <;> cases ho : p.oldP <;> simp [restoreParam, hg, ho]

/-- The restore pass leaves all gradients as the closure left them. -/
theorem samGrads_restoreAll (gs : List SamGroup) : samGrads (restoreAll gs) = samGrads gs := by
  induction gs with
  | nil => rfl
  | cons gr t ih =>
      have ih' := ih
      simp only [samGrads, restoreAll] at ih' ⊢
      simp only [List.map_cons, List.flatMap_cons, List.map_map, ih', List.append_cancel_right_eq]
      exact List.map_congr_left fun p _ => restoreParam_grad p

/-- Restoring a parameter list that agrees with the output of
`first_step` on values and `old_p` slots recovers the original values. -/
theorem params_restore_vals (s : ℚ) (ad : Bool) : ∀ ps qs : List SamParam,
    (∀ p ∈ ps, p.grad.isSome) → (∀ q ∈ qs, q.grad.isSome) →
    paramsValOldCompat (ps.map (firstStepParam s ad)) qs = true →
    (qs.map restoreParam).map (fun p => p.val) = ps.map (fun p => p.val) := by
  intro ps
  induction ps with
  | nil =>
      intro qs _ _ hc
      cases qs with
      | nil => rfl
      | cons q qt => simp [paramsValOldCompat] at hc
  | cons p pt ih =>
      intro qs h0 h2 hc
      cases qs with
      | nil => simp [paramsValOldCompat] at hc
      | cons q qt =>
          simp only [paramsValOldCompat, List.map_cons, List.zip_cons_cons, List.all_cons,
            List.length_cons, Bool.and_eq_true, beq_iff_eq, decide_eq_true_eq,
            Nat.add_right_cancel_iff] at hc
          obtain ⟨hlen, ⟨_, hold⟩, hall⟩ := hc
          have hpg : p.grad.isSome := h0 p (by simp)
          obtain ⟨g, hg⟩ := Option.isSome_iff_exists.mp hpg
          have hqo : q.oldP = some p.val := by
            rw [← hold]
            simp [firstStepParam, hg]
          have hqg : q.grad.isSome := h2 q (by simp)
          obtain ⟨gq, hgq⟩ := Option.isSome_iff_exists.mp hqg
          have hrv : (restoreParam q).val = p.val := by simp [restoreParam, hgq, hqo]
          simp only [List.map_cons, hrv, List.cons.injEq]
          refine ⟨trivial, ih qt (fun r hr => h0 r (by simp [hr])) (fun r hr => h2 r (by simp [hr])) ?_⟩
          simp only [paramsValOldCompat, Bool.and_eq_true, beq_iff_eq]
          exact ⟨by simpa using hlen, hall⟩

/-- Groupwise version of `params_restore_vals`. -/
theorem groups_restore_vals (gn : ℚ) : ∀ gs gs2 : List SamGroup,
    (∀ gr ∈ gs, ∀ p ∈ gr.params, p.grad.isSome) →
    (∀ gr ∈ gs2, ∀ p ∈ gr.params, p.grad.isSome) →
    groupsValOldCompat (gs.map (firstStepGroup gn)) gs2 = true →
    samVals (restoreAll gs2) = samVals gs := by
  intro gs
  induction gs with
  | nil =>
      intro gs2 _ _ hc
      cases gs2 with
      | nil => rfl
      | cons q qt => simp [groupsValOldCompat] at hc
  | cons gr t ih =>
      intro gs2 h0 h2 hc
      cases gs2 with
      | nil => simp [groupsValOldCompat] at hc
      | cons q qt =>
          simp only [groupsValOldCompat, List.map_cons, List.zip_cons_cons, List.all_cons,
            List.length_cons, Bool.and_eq_true, beq_iff_eq, Nat.add_right_cancel_iff] at hc
          obtain ⟨hlen, hpq, hall⟩ := hc
          have hvals : (q.params.map restoreParam).map (fun p => p.val) =
              gr.params.map (fun p => p.val) :=
            params_restore_vals (gr.rho / (gn + eps12)) gr.adaptive gr.params q.params
              (h0 gr (by simp)) (h2 q (by simp)) hpq
          have iht := ih qt (fun r hr => h0 r (by simp [hr])) (fun r hr => h2 r (by simp [hr])) (by
            simp only [groupsValOldCompat, Bool.and_eq_true, beq_iff_eq]
            exact ⟨by simpa using hlen, hall⟩)
          calc samVals (restoreAll (q :: qt))
              = (q.params.map restoreParam).map (fun p => p.val) ++ samVals (restoreAll qt) := rfl
            _ = gr.params.map (fun p => p.val) ++ samVals t := by rw [hvals, iht]
            _ = samVals (gr :: t) := rfl

/-- C3: `SAM.second_step` is exactly the wrapped base optimizer's step
applied to the restored state: every parameter with a gradient is first put
back to the `old_p` saved by the preceding `first_step` (so values return
to their pre-perturbation state) while the gradients — the ones computed at
the perturbed point — are left untouched, and only then is the base
optimizer invoked. -/
theorem sam_second_step_restores (f : ℚ → ℚ) (base : List SamGroup → List SamGroup)
    (gs gs2 : List SamGroup)
    (h0 : ∀ gr ∈ gs, ∀ p ∈ gr.params, p.grad.isSome)
    (h2 : ∀ gr ∈ gs2, ∀ p ∈ gr.params, p.grad.isSome)
    (hc : groupsValOldCompat (firstStep f gs) gs2 = true) :
    secondStep base gs2 = base (restoreAll gs2) ∧
    samVals (restoreAll gs2) = samVals gs ∧
    samGrads (restoreAll gs2) = samGrads gs2 :=
  ⟨rfl, groups_restore_vals (gradNorm f gs) gs gs2 h0 h2 hc, samGrads_restoreAll gs2⟩

/-- C3 witness: the gradients refreshed by the closure are taken to be the
ones `first_step` left in place. -/
theorem sam_second_step_restores_witness :
    ((∀ gr ∈ samGsW, ∀ p ∈ gr.params, p.grad.isSome) ∧
     groupsValOldCompat (firstStep sqrtW samGsW) (firstStep sqrtW samGsW) = true) ∧
    (secondStep samBaseId (firstStep sqrtW samGsW) =
      samBaseId (restoreAll (firstStep sqrtW samGsW)) ∧
    samVals (restoreAll (firstStep sqrtW samGsW)) = samVals samGsW ∧
    samGrads (restoreAll (firstStep sqrtW samGsW)) = samGrads (firstStep sqrtW samGsW)) :=
  ⟨⟨by decide, by
      norm_num [groupsValOldCompat, paramsValOldCompat, firstStep, firstStepGroup,
        firstStepParam, samGsW, samPW, samEw, gradNorm, gradNormStack, samNormedVec,
        sqsum, sqrtW, tadd, tscale, eps12]⟩,
   sam_second_step_restores sqrtW samBaseId samGsW (firstStep sqrtW samGsW)
     (by decide)
     (by
       norm_num [firstStep, firstStepGroup, firstStepParam, samGsW, samPW, samEw,
         gradNorm, gradNormStack, samNormedVec, sqsum, sqrtW, tadd, tscale, eps12])
     (by
       norm_num [groupsValOldCompat, paramsValOldCompat, firstStep, firstStepGroup,
         firstStepParam, samGsW, samPW, samEw, gradNorm, gradNormStack, samNormedVec,
         sqsum, sqrtW, tadd, tscale, eps12])⟩

/-! ### Claim C1 — the `start_preconditioning_step` boundary -/

/-- Rescaling preserves list length. -/
theorem tscale_length (c : ℚ) (v : List ℚ) : (tscale c v).length = v.length := by
  simp [tscale]

/-- C1: `is_precondition_step(n)` holds exactly when
`n >= start_preconditioning_step`, and `ScalableShampoo.step` assigns the
grafted (non-Shampoo) update — an expression mentioning no
`PreConditioner` operation at all — while the incremented step count is
below the boundary, switching to the preconditioned Shampoo path the moment
it reaches it. -/
theorem scalable_boundary_paths {P G : Type} (hp : ScHp) (pops : PreOps P)
    (gops : GraftOps G) (nrm : List ℚ → ℚ) (pval g : List ℚ) (st : ScState P G) :
    (∀ n : ℕ, isPreconditionStep hp n = true ↔ hp.startPreconditioningStep ≤ n) ∧
    (st.step + 1 < hp.startPreconditioningStep →
      (scStepCore hp pops gops nrm pval g st).val =
        scGraftPathVal hp gops nrm pval g st.graft) ∧
    (hp.startPreconditioningStep ≤ st.step + 1 →
      (scStepCore hp pops gops nrm pval g st).val =
        scShampooPathVal hp pops gops nrm pval g st) := by
  refine ⟨fun n => by simp [isPreconditionStep], ?_, ?_⟩
  · intro h
    have hb : isPreconditionStep hp (st.step + 1) = false := by
      simp [isPreconditionStep, Nat.not_le.mpr h]
    simp [scStepCore, scGraftPathVal, scShampooGrad0, graftUpdateMomentum, hb]
  · intro h
    have hb : isPreconditionStep hp (st.step + 1) = true := by
      simp [isPreconditionStep, h]
    simp [scStepCore, scShampooPathVal, scShampooGrad0, graftUpdateMomentum, hb]

/-- C1 witness: with `start_preconditioning_step = 5`, step count 0 takes
the grafted path and step count 7 takes the preconditioned path. -/
theorem scalable_boundary_paths_witness :
    (scStW.step + 1 < schpW.startPreconditioningStep ∧
      (scStepCore schpW popsW gopsW nrmW [1] [2] scStW).val =
        scGraftPathVal schpW gopsW nrmW [1] [2] scStW.graft) ∧
    (schpW.startPreconditioningStep ≤ scStW7.step + 1 ∧
      (scStepCore schpW popsW gopsW nrmW [1] [2] scStW7).val =
        scShampooPathVal schpW popsW gopsW nrmW [1] [2] scStW7) :=
  ⟨⟨by decide,
    (scalable_boundary_paths schpW popsW gopsW nrmW [1] [2] scStW).2.1 (by decide)⟩,
   ⟨by decide,
    (scalable_boundary_paths schpW popsW gopsW nrmW [1] [2] scStW7).2.2 (by decide)⟩⟩

/-! ### Claim C6 — sparse gradients abort the step -/

/-- The basic Shampoo parameter loop stops at the first sparse gradient:
parameters before it keep their committed updates, the offending parameter
and everything after it are untouched. -/
theorem shRunParams_sparse_abort (hp : ShHp) (psvd : List (List ℚ) → ℚ → List (List ℚ)) :
    ∀ (pre : List ShParam) (q : ShParam) (rest : List ShParam),
    (∀ p ∈ pre, ∀ gr, p.grad = some gr → gr.isSparse = false) →
    (∃ gq, q.grad = some gq ∧ gq.isSparse = true) →
    shRunParams hp psvd (pre ++ q :: rest) = (pre.map (shProcessOne hp psvd) ++ q :: rest, true) := by
  intro pre
  induction pre with
  | nil =>
      intro q rest _ hq
      obtain ⟨gq, hgq, hsp⟩ := hq
      simp [shRunParams, hgq, hsp]
  | cons p t ih =>
      intro q rest hpre hq
      have hrec := ih q rest (fun r hr => hpre r (by simp [hr])) hq
      cases hg : p.grad with
      | none => simp [shRunParams, hg, hrec, shProcessOne]
      | some gr =>
          have hns : gr.isSparse = false := hpre p (by simp) gr hg
          simp [shRunParams, hg, hns, hrec, shProcessOne]

/-- The scalable parameter loop has the same abort behaviour. -/
theorem scRunParams_sparse_abort {P G : Type} (hp : ScHp) (pops : PreOps P)
    (gops : GraftOps G) (nrm : List ℚ → ℚ) :
    ∀ (pre : List (ScParam P G)) (q : ScParam P G) (rest : List (ScParam P G)),
    (∀ p ∈ pre, ∀ gr, p.grad = some gr → gr.isSparse = false) →
    (∃ gq, q.grad = some gq ∧ gq.isSparse = true) →
    scRunParams hp pops gops nrm (pre ++ q :: rest) =
      (pre.map (scProcessOne hp pops gops nrm) ++ q :: rest, true) := by
  intro pre
  induction pre with
  | nil =>
      intro q rest _ hq
      obtain ⟨gq, hgq, hsp⟩ := hq
      simp [scRunParams, hgq, hsp]
  | cons p t ih =>
      intro q rest hpre hq
      have hrec := ih q rest (fun r hr => hpre r (by simp [hr])) hq
      cases hg : p.grad with
      | none => simp [scRunParams, hg, hrec, scProcessOne]
      | some gr =>
          have hns : gr.isSparse = false := hpre p (by simp) gr hg
          simp [scRunParams, hg, hns, hrec, scProcessOne]

/-- C6: in both `Shampoo.step` and `ScalableShampoo.step`, the first sparse
gradient raises `NoSparseGradientError` before any of that parameter's
state or value is touched; parameters processed earlier in the same step
keep their already committed updates, and later parameters are never
reached. -/
theorem sparse_gradient_aborts {P G : Type} (hp : ShHp)
    (psvd : List (List ℚ) → ℚ → List (List ℚ)) (schp : ScHp) (pops : PreOps P)
    (gops : GraftOps G) (nrm : List ℚ → ℚ) (c : Option ℚ)
    (pre : List ShParam) (q : ShParam) (rest : List ShParam)
    (pre2 : List (ScParam P G)) (q2 : ScParam P G) (rest2 : List (ScParam P G))
    (h1 : ∀ p ∈ pre, ∀ gr, p.grad = some gr → gr.isSparse = false)
    (h2 : ∃ gq, q.grad = some gq ∧ gq.isSparse = true)
    (h3 : ∀ p ∈ pre2, ∀ gr, p.grad = some gr → gr.isSparse = false)
    (h4 : ∃ gq, q2.grad = some gq ∧ gq.isSparse = true) :
    shampooStep hp psvd c (pre ++ q :: rest) =
      { params := pre.map (shProcessOne hp psvd) ++ q :: rest, raised := true, loss := c } ∧
    scalableStep schp pops gops nrm c (pre2 ++ q2 :: rest2) =
      { params := pre2.map (scProcessOne schp pops gops nrm) ++ q2 :: rest2,
        raised := true, loss := c } := by
  constructor
  · simp [shampooStep, shRunParams_sparse_abort hp psvd pre q rest h1 h2]
  · simp [scalableStep, scRunParams_sparse_abort schp pops gops nrm pre2 q2 rest2 h3 h4]

/-- C6 witness: a dense parameter followed by a sparse one, in both
optimizers. -/
theorem sparse_gradient_aborts_witness :
    (shPSparse.grad = some { isSparse := true, values := [3] } ∧
      scPSparse.grad = some { isSparse := true, values := [3] }) ∧
    (shampooStep hpW psvdId (some 7) ([shPW] ++ shPSparse :: []) =
      { params := [shPW].map (shProcessOne hpW psvdId) ++ shPSparse :: [],
        raised := true, loss := some 7 } ∧
    scalableStep schpW popsW gopsW nrmW (some 7) ([scPW] ++ scPSparse :: []) =
      { params := [scPW].map (scProcessOne schpW popsW gopsW nrmW) ++ scPSparse :: [],
        raised := true, loss := some 7 }) :=
  ⟨⟨rfl, rfl⟩,
   sparse_gradient_aborts hpW psvdId schpW popsW gopsW nrmW (some 7)
     [shPW] shPSparse [] [scPW] scPSparse []
     (by decide) ⟨{ isSparse := true, values := [3] }, rfl, rfl⟩
     (by
       intro p hp gr hgr
       simp only [List.mem_singleton] at hp
       subst hp
       simp only [scPW] at hgr
       cases hgr
       rfl)
     ⟨{ isSparse := true, values := [3] }, rfl, rfl⟩⟩

/-! ### Claim C8 — the grafting norm rescale -/

/-- C8: with grafting active the shampoo gradient is rescaled by exactly
`norm(graft_grad) / (norm(shampoo_grad) + 1e-16)` — so its squared norm
satisfies the corresponding exact magnitude identity while its direction
(a scalar multiple of the original) is preserved; with
`graft_type == None` the rescale is skipped entirely. -/
theorem grafting_rescale (hp : ScHp) (nrm : List ℚ → ℚ) (gg s0 : List ℚ) :
    (hp.graftNone = false →
      scRescaled hp nrm gg s0 = tscale (nrm gg / (nrm s0 + eps16)) s0 ∧
      (0 ≤ nrm s0 → nrm s0 * nrm s0 = sqsum s0 →
        sqsum (scRescaled hp nrm gg s0) * ((nrm s0 + eps16) * (nrm s0 + eps16)) =
          (nrm gg * nrm gg) * (nrm s0 * nrm s0))) ∧
    (hp.graftNone = true → scRescaled hp nrm gg s0 = s0) := by
  constructor
  · intro hg
    constructor
    · simp [scRescaled, scRescaleFactor, hg]
    · intro hns hsq
      have hpos : (0 : ℚ) < nrm s0 + eps16 := by
        have he : (0 : ℚ) < eps16 := by norm_num [eps16]
        linarith
      have hne : nrm s0 + eps16 ≠ 0 := ne_of_gt hpos
      simp only [scRescaled, hg, Bool.false_eq_true, if_false]
      rw [sqsum_tscale, scRescaleFactor, ← hsq]
      field_simp
  · intro hg
    simp [scRescaled, hg]

/-- C8 witness: `shampoo_grad = [3, 4]` with true norm `5` and
`graft_grad = [1]` with table norm `0`; the `graft_type == None` case uses
the same vectors. -/
theorem grafting_rescale_witness :
    (schpW.graftNone = false ∧
      scRescaled schpW nrmNormW [1] [3, 4] =
        tscale (nrmNormW [1] / (nrmNormW [3, 4] + eps16)) [3, 4] ∧
      sqsum (scRescaled schpW nrmNormW [1] [3, 4]) *
          ((nrmNormW [3, 4] + eps16) * (nrmNormW [3, 4] + eps16)) =
        (nrmNormW [1] * nrmNormW [1]) * (nrmNormW [3, 4] * nrmNormW [3, 4])) ∧
    (schpWNone.graftNone = true ∧ scRescaled schpWNone nrmNormW [1] [3, 4] = [3, 4]) :=
  ⟨⟨rfl,
    ((grafting_rescale schpW nrmNormW [1] [3, 4]).1 rfl).1,
    ((grafting_rescale schpW nrmNormW [1] [3, 4]).1 rfl).2
      (by norm_num [nrmNormW, sqrtW, sqsum])
      (by norm_num [nrmNormW, sqrtW, sqsum])⟩,
   ⟨rfl, (grafting_rescale schpWNone nrmNormW [1] [3, 4]).2 rfl⟩⟩

/-! ### Claim C10 — the rescale leaks into the graft momentum -/

/-- C10: while preconditioning is inactive and grafting is on,
`shampoo_grad` aliases `p.grad`, so after the in-place norm rescale (and
any weight-decay mutation) the gradient object holds the rescaled value;
`graft.update_momentum(grad, beta1)` then reads that mutated value, so the
graft momentum accumulates the rescaled gradient — and differs from what
accumulating the original gradient would give whenever the two differ. -/
theorem graft_momentum_accumulates_rescaled {P G : Type} (hp : ScHp) (pops : PreOps P)
    (gops : GraftOps G) (nrm : List ℚ → ℚ) (pval g : List ℚ) (st : ScState P G)
    (hgr : hp.graftNone = false)
    (hpre : st.step + 1 < hp.startPreconditioningStep)
    (hset : ∀ (x : G) (m : List ℚ), gops.momentumOf (gops.setMomentum x m) = m) :
    (scStepCore hp pops gops nrm pval g st).grad =
      some { isSparse := false,
             values := scWdApply hp pval (tscale (scRescaleFactor nrm
               (scGraftGrad0 hp gops (scGraft1 hp gops st.graft g) g) g) g) } ∧
    ((scStepCore hp pops gops nrm pval g st).st.map (fun s2 => gops.momentumOf s2.graft)) =
      some (tadd (tscale hp.beta1 (gops.momentumOf (scGraft1 hp gops st.graft g)))
        (scWdApply hp pval (tscale (scRescaleFactor nrm
          (scGraftGrad0 hp gops (scGraft1 hp gops st.graft g) g) g) g))) ∧
    (scWdApply hp pval (tscale (scRescaleFactor nrm
        (scGraftGrad0 hp gops (scGraft1 hp gops st.graft g) g) g) g) ≠ g →
      (scWdApply hp pval (tscale (scRescaleFactor nrm
        (scGraftGrad0 hp gops (scGraft1 hp gops st.graft g) g) g) g)).length =
        (gops.momentumOf (scGraft1 hp gops st.graft g)).length →
      g.length = (gops.momentumOf (scGraft1 hp gops st.graft g)).length →
      tadd (tscale hp.beta1 (gops.momentumOf (scGraft1 hp gops st.graft g)))
          (scWdApply hp pval (tscale (scRescaleFactor nrm
            (scGraftGrad0 hp gops (scGraft1 hp gops st.graft g) g) g) g)) ≠
        tadd (tscale hp.beta1 (gops.momentumOf (scGraft1 hp gops st.graft g))) g) := by
  have hb : isPreconditionStep hp (st.step + 1) = false := by
    simp [isPreconditionStep, Nat.not_le.mpr hpre]
  refine ⟨?_, ?_, ?_⟩
  · simp [scStepCore, scShampooGrad0, scRescaled, hb, hgr]
  · simp [scStepCore, scShampooGrad0, scRescaled, graftUpdateMomentum, hb, hgr, hset]
  · intro hne hl1 hl2 heq
    exact hne (tadd_left_cancel (tscale hp.beta1 (gops.momentumOf (scGraft1 hp gops st.graft g)))
      _ g (by rw [tscale_length]; exact hl1) (by rw [tscale_length]; exact hl2) heq)

/-- C10 witness: gradient `[1]`, graft preconditioning doubling the input,
squared-sum norm; the rescale factor is `4 / (1 + 1e-16) ≠ 1`, and the
accumulated momentum differs from the unrescaled accumulation. -/
theorem graft_momentum_accumulates_rescaled_witness :
    (schpW.graftNone = false ∧ scStW.step + 1 < schpW.startPreconditioningStep) ∧
    ((scStepCore schpW popsW gopsW nrmW [1] [1] scStW).grad =
      some { isSparse := false,
             values := scWdApply schpW [1] (tscale (scRescaleFactor nrmW
               (scGraftGrad0 schpW gopsW (scGraft1 schpW gopsW scStW.graft [1]) [1]) [1]) [1]) } ∧
    tadd (tscale schpW.beta1 (gopsW.momentumOf (scGraft1 schpW gopsW scStW.graft [1])))
        (scWdApply schpW [1] (tscale (scRescaleFactor nrmW
          (scGraftGrad0 schpW gopsW (scGraft1 schpW gopsW scStW.graft [1]) [1]) [1]) [1])) ≠
      tadd (tscale schpW.beta1 (gopsW.momentumOf (scGraft1 schpW gopsW scStW.graft [1]))) [1]) :=
  ⟨⟨rfl, by decide⟩,
   ⟨(graft_momentum_accumulates_rescaled schpW popsW gopsW nrmW [1] [1] scStW rfl
       (by decide) (fun _ _ => rfl)).1,
    (graft_momentum_accumulates_rescaled schpW popsW gopsW nrmW [1] [1] scStW rfl
       (by decide) (fun _ _ => rfl)).2.2
      (by norm_num [scWdApply, scRescaleFactor, scGraftGrad0, scGraft1, schpW, gopsW,
        nrmW, scStW, sqsum, tscale, tadd, eps16])
      (by norm_num [scWdApply, scRescaleFactor, scGraftGrad0, scGraft1, schpW, gopsW,
        nrmW, scStW, sqsum, tscale, tadd, eps16])
      (by norm_num [scGraft1, gopsW, scStW])⟩⟩

end PyTorchOpt
